import Mathlib

/-!
Verification of the game_of_life repository (a GPU Game of Life in Rust).

The camera (`src/camera.rs`), frame-pacing loop (`src/lib.rs`), controller
(`src/controller.rs`), simulation command recording (`src/simulation.rs`),
randomizer (`src/randomizer.rs`) and flipper (`src/flipper.rs`) are embedded
shallowly: floating-point scalars are modelled as rationals, GPU command
buffers and futures as explicit event lists, and machine integers as `Nat`.
-/

namespace GoL

/-- Rust `clamp(lo, hi)`: below `lo` gives `lo`, above `hi` gives `hi`. -/
def rclamp (v lo hi : ℚ) : ℚ :=
  if v < lo then lo else if hi < v then hi else v

/-- Rust `f64::signum` restricted to rationals (no NaN, and `+0` has a clear
sign bit, so zero maps to `1`). -/
def signumQ (q : ℚ) : ℚ :=
  if q < 0 then -1 else 1

/-- Rust `as u32` cast from a finite float value: truncation toward zero with
saturation at `0` and `u32::MAX`.  For non-negative values truncation is the
floor; negative values saturate to `0` via `Int.toNat`. -/
def toU32 (q : ℚ) : ℕ :=
  min (2 ^ 32 - 1) (Int.toNat ⌊q⌋)

/-- `static SCALE_FACTOR: f32 = 0.1` from `src/camera.rs`. -/
def SCALE_FACTOR : ℚ := 1 / 10

/-- The `Camera` struct of `src/camera.rs`.  `translation` keeps only the
`x`/`y` components of the `Vec3` (the `z` component is never read or
written after construction). -/
structure Camera where
  scale : ℚ
  ratio : ℚ
  moving : Bool
  game_ratio : ℚ
  translation : ℚ × ℚ
  game_size : ℕ × ℕ
  screen_size : ℚ × ℚ
  cursor_pos : ℚ × ℚ
  deriving DecidableEq

/-- The subset of `winit::event::WindowEvent` that `Camera::update` matches
on.  `mouseWheelLine`/`mouseWheelPixel` are the two `MouseScrollDelta`
variants; `mouseInput` carries whether the button is pressed and whether it
is the left button; `other` stands for every remaining event (the `_ => ()`
arm). -/
inductive WEvent where
  | resized (w h : ℕ)
  | cursorMoved (x y : ℚ)
  | mouseWheelLine (dx dy : ℚ)
  | mouseWheelPixel (x y : ℚ)
  | mouseInput (pressed : Bool) (left : Bool)
  | other
  deriving DecidableEq

namespace Camera

/-- `Camera::new` from `src/camera.rs` lines 24-42. -/
def new (game_size : ℕ × ℕ) (screen_size : ℕ × ℕ) : Camera :=
  let game_ratio : ℚ := (game_size.1 : ℚ) / (game_size.2 : ℚ)
  let screen : ℚ × ℚ := ((screen_size.1 : ℚ), (screen_size.2 : ℚ))
  let screen_ratio := screen.1 / screen.2
  { scale := 1
    ratio := game_ratio / screen_ratio
    moving := false
    game_ratio := game_ratio
    translation := (0, 0)
    game_size := game_size
    screen_size := screen
    cursor_pos := (0, 0) }

/-- `Camera::update` from `src/camera.rs` lines 45-87. -/
def update (c : Camera) (e : WEvent) : Camera :=
  match e with
  | .resized w h =>
      if h ≠ 0 ∧ w ≠ 0 then
        let screen : ℚ × ℚ := ((w : ℚ), (h : ℚ))
        let screen_ratio := screen.1 / screen.2
        { c with screen_size := screen, ratio := c.game_ratio / screen_ratio }
      else c
  | .cursorMoved x y =>
      let c :=
        if c.moving then
          let dx := (x - c.cursor_pos.1) * 2 / c.screen_size.1
          let dy := (y - c.cursor_pos.2) * 2 / c.screen_size.2
          let tx := c.translation.1 + dx / c.scale
          let ty := c.translation.2 + dy / (c.scale / c.ratio)
          { c with translation := (rclamp tx (-1) 1, rclamp ty (-1) 1) }
        else c
      { c with cursor_pos := (x, y) }
  | .mouseWheelLine _ dy =>
      let scale := c.scale + dy * SCALE_FACTOR * c.scale
      { c with scale := rclamp scale (1 / 2) 1000 }
  | .mouseWheelPixel _ y =>
      let scale := c.scale + signumQ y * SCALE_FACTOR * c.scale
      { c with scale := rclamp scale (1 / 2) 1000 }
  | .mouseInput pressed left =>
      if left then { c with moving := pressed } else c
  | .other => c

/-- `Camera::matrix` from `src/camera.rs` lines 91-94, as the affine action of
`Mat4::from_scale(scale, scale/ratio, 1) * Mat4::from_translation(translation)`
on an `(x, y)` point of the full-screen quad. -/
def matrix (c : Camera) (p : ℚ × ℚ) : ℚ × ℚ :=
  (c.scale * (p.1 + c.translation.1), c.scale / c.ratio * (p.2 + c.translation.2))

/-- The chain of arithmetic steps of `Camera::cursor_game_position`
(`src/camera.rs` lines 100-115), before the final `as u32` casts. -/
def pickReal (c : Camera) : ℚ × ℚ :=
  let pos_x := c.cursor_pos.1 - c.screen_size.1 / 2
  let pos_x := pos_x / (c.screen_size.1 * c.scale)
  let pos_y := c.cursor_pos.2 - c.screen_size.2 / 2
  let pos_y := pos_y / (c.screen_size.2 * c.scale)
  let pos_y := pos_y * c.ratio
  let pos_x := pos_x + c.translation.1 / (-2)
  let pos_y := pos_y + c.translation.2 / (-2)
  let pos_x := pos_x * (c.game_size.1 : ℚ)
  let pos_y := pos_y * (c.game_size.2 : ℚ)
  let pos_x := pos_x + (c.game_size.1 : ℚ) / 2
  let pos_y := pos_y + (c.game_size.2 : ℚ) / 2
  (pos_x, pos_y)

/-- `Camera::cursor_game_position` from `src/camera.rs` lines 100-116: the
arithmetic chain of `pickReal` followed by the two `as u32` casts. -/
def cursor_game_position (c : Camera) : ℕ × ℕ :=
  (toU32 (pickReal c).1, toU32 (pickReal c).2)

/-- Modelled from the spec: the vertex stage (shader sources are not under
`src/`) draws the full-screen quad over normalized device coordinates
`[-1,1]²`, so grid cell `i` of a row/column of `count` cells occupies the
quad interval starting at `2*i/count - 1`; `t ∈ [0,1)` picks a point inside
the cell. -/
def cellNdc (count : ℕ) (i : ℕ) (t : ℚ) : ℚ :=
  2 * ((i : ℚ) + t) / (count : ℚ) - 1

/-- Modelled from the spec: the fixed-function viewport transform for the
viewport recorded in `src/presenter.rs` (origin `[0,0]`, dimensions the
window size), mapping a normalized device coordinate to a pixel
coordinate. -/
def ndcToPixel (dim : ℚ) (ndc : ℚ) : ℚ :=
  (ndc + 1) / 2 * dim

/-- The forward view transform of `src/camera.rs`: the pixel position that a
point `t` inside grid cell `(x, y)` is rendered to, through `Camera.matrix`
and the viewport transform. -/
def forwardPixel (c : Camera) (x y : ℕ) (tx ty : ℚ) : ℚ × ℚ :=
  let p := c.matrix (cellNdc c.game_size.1 x tx, cellNdc c.game_size.2 y ty)
  (ndcToPixel c.screen_size.1 p.1, ndcToPixel c.screen_size.2 p.2)

end Camera

/-- Buffer handles: `vulkan::create_gpu_buffer` allocates a fresh GPU buffer,
modelled by an allocation counter handing out increasing ids. -/
def create_gpu_buffer (counter : ℕ) : ℕ × ℕ :=
  (counter, counter + 1)

/-- The command kinds recorded into the command buffers of
`src/simulation.rs`, `src/randomizer.rs` and `src/flipper.rs`. -/
inductive Cmd where
  | copyBuffer (src dst : ℕ)
  | fillZero (dst : ℕ)
  | dispatch (writeBuf readBuf : ℕ) (groups : List ℕ)
  deriving DecidableEq

/-- Events on a `GpuFuture` chain: `then_execute`, `then_signal_fence_and_flush`,
the host-side blocking `wait(None)`, and `then_signal_semaphore_and_flush`. -/
inductive GpuEvent where
  | exec (queue : ℕ) (c : Cmd)
  | fenceFlush
  | hostWait
  | semaphoreFlush
  deriving DecidableEq

namespace Simulation

/-- The workgroup-count computation of `Simulation::new`
(`src/simulation.rs` lines 57-63). -/
def groupSize (size : ℕ × ℕ) : List ℕ :=
  let g0 := size.1 / 32
  let g1 := size.2 / 32
  let g0 := if size.1 % 32 ≠ 0 then g0 + 1 else g0
  let g1 := if size.2 % 32 ≠ 0 then g1 + 1 else g1
  [g0, g1, 1]

end Simulation

/-- The `Simulation` struct of `src/simulation.rs`: the compute queue and the
three pre-recorded command buffers. -/
structure Simulation where
  compute_queue : ℕ
  main_buffer : Cmd
  copy_buffer : Cmd
  clear_buffer : Cmd
  deriving DecidableEq

namespace Simulation

/-- `Simulation::new` from `src/simulation.rs` lines 53-106: allocates the
`input` (snapshot) buffer with `create_gpu_buffer`, records the evolution
dispatch bound to `output` (binding 0, written) and `input` (binding 1,
read), the `output → input` copy, and the `output` fill-with-zero.  Returns
the struct together with the advanced allocation counter. -/
def new (compute_queue : ℕ) (output : ℕ) (counter : ℕ) (size : ℕ × ℕ) :
    Simulation × ℕ :=
  let (input, counter) := create_gpu_buffer counter
  ({ compute_queue := compute_queue
     main_buffer := .dispatch output input (groupSize size)
     copy_buffer := .copyBuffer output input
     clear_buffer := .fillZero output },
   counter)

/-- `Simulation::step` from `src/simulation.rs` lines 117-132.  The incoming
future is extended with the copy execution, a fence flush and the blocking
`wait(None)` — this chain is fully completed on the host before the second
part runs — and the returned future is a fresh chain executing the evolution
dispatch followed by a semaphore flush.  The first component is the
host-completed chain, the second the returned token. -/
def step (s : Simulation) (future : List GpuEvent) :
    List GpuEvent × List GpuEvent :=
  let waited := future ++
    [GpuEvent.exec s.compute_queue s.copy_buffer, GpuEvent.fenceFlush,
     GpuEvent.hostWait]
  (waited, [GpuEvent.exec s.compute_queue s.main_buffer, GpuEvent.semaphoreFlush])

end Simulation

namespace Randomizer

/-- The workgroup-count computation of `Randomizer::new`
(`src/randomizer.rs` lines 71-77). -/
def groupSize (size : ℕ × ℕ) : List ℕ :=
  let g0 := size.1 / 32
  let g1 := size.2 / 32
  let g0 := if size.1 % 32 ≠ 0 then g0 + 1 else g0
  let g1 := if size.2 % 32 ≠ 0 then g1 + 1 else g1
  [g0, g1, 1]

end Randomizer

/-- The command recorded by one `Flipper::flip` call
(`src/flipper.rs` lines 89-121): the pushed cell coordinate and the
dispatched group counts. -/
structure FlipCommand where
  position : ℕ × ℕ
  groups : List ℕ
  deriving DecidableEq

namespace Flipper

/-- `Flipper::flip` from `src/flipper.rs` lines 89-121: pushes `position` as
push constants and dispatches `[1, 1, 1]` groups. -/
def flip (position : ℕ × ℕ) : FlipCommand :=
  { position := position, groups := [1, 1, 1] }

end Flipper

/-- The `GameOfLife::new` wiring of `src/lib.rs` lines 67-83 restricted to the
simulation: the live buffer is the first allocation
(`vulkan::create_gpu_buffer` at counter 0) and `Simulation::new` allocates
the snapshot buffer next. -/
def gameOfLifeSimulation (compute_queue : ℕ) (size : ℕ × ℕ) : Simulation :=
  let (buffer, counter) := create_gpu_buffer 0
  (Simulation.new compute_queue buffer counter size).1

/-- The guarded division of the pacing check: Rust `1000 / speed` panics when
`speed = 0`, so the division is modelled fallibly. -/
def checkedDiv (a b : ℕ) : Option ℕ :=
  if b = 0 then none else some (a / b)

/-- The short-circuit pacing condition
`speed > 0 && (now - timer).as_millis() > 1000 / speed` of `src/lib.rs`
line 160: the division is only evaluated when `speed > 0`. -/
def stepCondition (speed elapsed : ℕ) : Option Bool :=
  if 0 < speed then (checkedDiv 1000 speed).map (fun t => decide (t < elapsed))
  else some false

/-- The `Event::MainEventsCleared` arm of `GameOfLife::run`
(`src/lib.rs` lines 140-163) up to the decision of whether
`Simulation::step` is invoked this frame: a minimized window returns early,
a failed swapchain acquire returns early, otherwise the pacing condition
decides.  `none` stands for a divide-by-zero panic (which never occurs). -/
def frameTick (minimized acquireOk : Bool) (speed elapsed : ℕ) : Option Bool :=
  if minimized then some false
  else if acquireOk = false then some false
  else stepCondition speed elapsed

/-- The `Controller` struct of `src/controller.rs` restricted to the fields
the claims are about. -/
structure Controller where
  grid : Bool
  speed : ℕ
  max_speed : ℕ
  deriving DecidableEq

namespace Controller

/-- `Controller::new` from `src/controller.rs` lines 26-50: `speed` starts at
60 and `max_speed` is the first monitor's refresh rate in millihertz
(defaulting to 60000 when unavailable) divided by 1000. -/
def new (refreshMillihertz : Option ℕ) : Controller :=
  { grid := false
    speed := 60
    max_speed := refreshMillihertz.getD 60000 / 1000 }

/-- Modelled from the spec: the egui speed slider (the egui crate is not under
`src/`) exposes `speed` as a read/write value bounded to `[0, max_speed]`,
so a user update through the control clamps the new value into that range. -/
def setSpeed (c : Controller) (v : ℕ) : Controller :=
  { c with speed := min v c.max_speed }

end Controller

/-- The camera-state bounds of the spec: both translation axes in `[-1, 1]`
and the scale in its configured `[1/2, 1000]` range. -/
def Camera.inBounds (c : Camera) : Prop :=
  -1 ≤ c.translation.1 ∧ c.translation.1 ≤ 1 ∧
  -1 ≤ c.translation.2 ∧ c.translation.2 ≤ 1 ∧
  1 / 2 ≤ c.scale ∧ c.scale ≤ 1000

instance (c : Camera) : Decidable c.inBounds := by
  unfold Camera.inBounds
  infer_instance

/-- A concrete reachable camera (default state over a 4x4 grid and 100x100
viewport) whose cursor sits exactly where the forward transform renders the
point `(0, 1/2)` of cell `(2, 1)`. -/
def pickWitnessCamera : Camera :=
  { Camera.new (4, 4) (100, 100) with
    cursor_pos := Camera.forwardPixel (Camera.new (4, 4) (100, 100)) 2 1 0 (1 / 2) }

lemma rclamp_mem {v lo hi : ℚ} (h : lo ≤ hi) :
    lo ≤ rclamp v lo hi ∧ rclamp v lo hi ≤ hi := by
  unfold rclamp
  split_ifs with h1 h2 <;> constructor <;> linarith

lemma inBounds_update (c : Camera) (e : WEvent) (h : c.inBounds) :
    (c.update e).inBounds := by
  obtain ⟨h1, h2, h3, h4, h5, h6⟩ := h
  have hm1 : (-1 : ℚ) ≤ 1 := by norm_num
  have hm2 : (1 / 2 : ℚ) ≤ 1000 := by norm_num
  cases e with
  | resized w hh =>
      simp only [Camera.update]
      split <;> exact ⟨h1, h2, h3, h4, h5, h6⟩
  | cursorMoved x y =>
      by_cases hmov : c.moving <;> simp only [Camera.update, hmov, if_true, if_false]
      · exact ⟨(rclamp_mem hm1).1, (rclamp_mem hm1).2, (rclamp_mem hm1).1,
          (rclamp_mem hm1).2, h5, h6⟩
      · exact ⟨h1, h2, h3, h4, h5, h6⟩
  | mouseWheelLine dx dy =>
      exact ⟨h1, h2, h3, h4, (rclamp_mem hm2).1, (rclamp_mem hm2).2⟩
  | mouseWheelPixel x y =>
      exact ⟨h1, h2, h3, h4, (rclamp_mem hm2).1, (rclamp_mem hm2).2⟩
  | mouseInput pressed left =>
      simp only [Camera.update]
      split <;> exact ⟨h1, h2, h3, h4, h5, h6⟩
  | other =>
      exact ⟨h1, h2, h3, h4, h5, h6⟩

lemma toU32_lt {q : ℚ} {n : ℕ} (hn : 0 < n) (h : q < (n : ℚ)) : toU32 q < n := by
  have h1 : ⌊q⌋ < (n : ℤ) := Int.floor_lt.mpr (by exact_mod_cast h)
  simp only [toU32]
  omega

lemma toU32_lt_iff {q : ℚ} {n : ℕ} (hn : 0 < n) (hn32 : n ≤ 2 ^ 32 - 1) :
    toU32 q < n ↔ q < (n : ℚ) := by
  constructor
  · intro h
    simp only [toU32] at h
    have hfq : ⌊q⌋ + 1 ≤ (n : ℤ) := by omega
    calc q < (⌊q⌋ : ℚ) + 1 := Int.lt_floor_add_one q
      _ ≤ (n : ℚ) := by exact_mod_cast hfq
  · exact toU32_lt hn

lemma toU32_add_fract (x : ℕ) (t : ℚ) (h0 : 0 ≤ t) (h1 : t < 1)
    (hx : x < 2 ^ 32) : toU32 ((x : ℚ) + t) = x := by
  have hfl : ⌊(x : ℚ) + t⌋ = (x : ℤ) := by
    rw [add_comm, Int.floor_add_nat, Int.floor_eq_zero_iff.mpr ⟨h0, h1⟩, zero_add]
  simp only [toU32, hfl]
  omega

lemma toU32_natCast (x : ℕ) (hx : x < 2 ^ 32) : toU32 (x : ℚ) = x := by
  have h := toU32_add_fract x 0 le_rfl (by norm_num) hx
  simpa using h

/-- Claim C4: the camera-state invariant (each translation axis in `[-1, 1]`
and the scale in `[1/2, 1000]`) holds at construction and is preserved by
`Camera::update` for every input event, hence holds after arbitrary event
sequences. -/
theorem camera_state_invariant :
    (∀ gs ss : ℕ × ℕ, (Camera.new gs ss).inBounds) ∧
    ∀ (c : Camera) (es : List WEvent), c.inBounds →
      (es.foldl Camera.update c).inBounds := by
  constructor
  · intro gs ss
    unfold Camera.new Camera.inBounds
    norm_num
  · intro c es h
    induction es generalizing c with
    | nil => exact h
    | cons e es ih => exact ih _ (inBounds_update c e h)

/-- Witness for `camera_state_invariant` at a concrete camera and a concrete
event sequence. -/
theorem camera_state_invariant_witness :
    (Camera.new (4, 4) (100, 100)).inBounds ∧
    ([WEvent.mouseWheelLine 0 3, WEvent.mouseInput true true,
      WEvent.cursorMoved 10 10].foldl Camera.update
        (Camera.new (4, 4) (100, 100))).inBounds :=
  ⟨camera_state_invariant.1 (4, 4) (100, 100),
   camera_state_invariant.2 (Camera.new (4, 4) (100, 100)) _
     (camera_state_invariant.1 (4, 4) (100, 100))⟩

/-- Claim C7 counterexample: for a pixel-delta scroll event carrying delta 5,
the new scale is `old + signum(5) * FACTOR * old = 11/10`, not the
`old + 5 * FACTOR * old = 3/2` the claim's formula demands. -/
theorem camera_scroll_pixel_delta_cex :
    (Camera.update (Camera.new (4, 4) (100, 100)) (.mouseWheelPixel 0 5)).scale ≠
      rclamp ((Camera.new (4, 4) (100, 100)).scale +
        5 * SCALE_FACTOR * (Camera.new (4, 4) (100, 100)).scale) (1 / 2) 1000 := by
  norm_num [Camera.update, Camera.new, rclamp, signumQ, SCALE_FACTOR]

/-- Claim C7 (amended): a line-delta scroll of `d` sets the scale to
`clamp(old + d * FACTOR * old, 1/2, 1000)` (relative zoom, then clamp); a
pixel-delta scroll of `d` uses `signum(d)` in place of `d`. -/
theorem camera_scroll_scale_update (c : Camera) (dx dy x y : ℚ) :
    (Camera.update c (.mouseWheelLine dx dy)).scale =
      rclamp (c.scale + dy * SCALE_FACTOR * c.scale) (1 / 2) 1000 ∧
    (Camera.update c (.mouseWheelPixel x y)).scale =
      rclamp (c.scale + signumQ y * SCALE_FACTOR * c.scale) (1 / 2) 1000 :=
  ⟨rfl, rfl⟩

/-- Claim C8: a resize with either dimension zero leaves the camera state
fully unchanged; a resize with both dimensions nonzero recomputes only the
stored screen size and the aspect-correction factor (grid aspect divided by
the new viewport aspect), leaving scale, translation and dragging state
untouched. -/
theorem camera_resize_update (c : Camera) (w h : ℕ) :
    Camera.update c (.resized w h) =
      if h ≠ 0 ∧ w ≠ 0 then
        { c with screen_size := ((w : ℚ), (h : ℚ)),
                 ratio := c.game_ratio / ((w : ℚ) / (h : ℚ)) }
      else c := by
  rfl

/-- Claim C9: the evolution and randomize passes both dispatch exactly
`ceil(width/32) x ceil(height/32) x 1` groups, and a toggle dispatches one
`1 x 1 x 1` group. -/
theorem dispatch_group_sizes (w h : ℕ) :
    Simulation.groupSize (w, h) = [(w + 31) / 32, (h + 31) / 32, 1] ∧
    Randomizer.groupSize (w, h) = [(w + 31) / 32, (h + 31) / 32, 1] ∧
    ∀ p : ℕ × ℕ, (Flipper.flip p).groups = [1, 1, 1] := by
  have e : ∀ n : ℕ, (if n % 32 ≠ 0 then n / 32 + 1 else n / 32) = (n + 31) / 32 := by
    intro n
    split <;> omega
  refine ⟨?_, ?_, fun p => rfl⟩
  · show [if w % 32 ≠ 0 then w / 32 + 1 else w / 32,
          if h % 32 ≠ 0 then h / 32 + 1 else h / 32, 1] = _
    rw [e, e]
  · show [if w % 32 ≠ 0 then w / 32 + 1 else w / 32,
          if h % 32 ≠ 0 then h / 32 + 1 else h / 32, 1] = _
    rw [e, e]

/-- Claim C2: `Simulation::step` first extends the incoming future with the
live-to-snapshot copy on the compute queue, fence-flushes it and blocks in
`wait` until it completes, then returns a fresh token executing the evolution
dispatch — bound to the live buffer (write) and the distinct snapshot buffer
(read) — followed by its completion signal. -/
theorem simulation_step_protocol (q w h : ℕ) (fut : List GpuEvent) :
    ∃ live snap : ℕ,
      live ≠ snap ∧
      (gameOfLifeSimulation q (w, h)).copy_buffer = Cmd.copyBuffer live snap ∧
      ((gameOfLifeSimulation q (w, h)).step fut).1 =
        fut ++ [GpuEvent.exec q (Cmd.copyBuffer live snap), GpuEvent.fenceFlush,
                GpuEvent.hostWait] ∧
      ((gameOfLifeSimulation q (w, h)).step fut).2 =
        [GpuEvent.exec q (Cmd.dispatch live snap (Simulation.groupSize (w, h))),
         GpuEvent.semaphoreFlush] :=
  ⟨0, 1, by decide, rfl, rfl, rfl⟩

/-- Claim C3 counterexample: on a minimized frame tick the loop returns
before the pacing check, so no step is invoked even though the speed is
nonzero and the elapsed time exceeds `1000/speed`. -/
theorem frame_pacing_minimized_cex :
    frameTick true true 60 1000 = some false ∧ 0 < 60 ∧ 1000 / 60 < 1000 := by
  decide

/-- Claim C3 (amended): the pacing computation never divides by zero; on a
non-minimized frame tick whose swapchain acquire succeeds, `step` is invoked
exactly when the speed is nonzero and the elapsed milliseconds exceed
`1000/speed` (integer division); with speed zero no frame tick ever invokes
`step`. -/
theorem frame_pacing (speed elapsed : ℕ) (m a : Bool) :
    frameTick m a speed elapsed ≠ none ∧
    frameTick false true speed elapsed =
      some (decide (speed ≠ 0 ∧ 1000 / speed < elapsed)) ∧
    frameTick m a 0 elapsed = some false := by
  unfold frameTick stepCondition checkedDiv
  rcases Nat.eq_zero_or_pos speed with hs | hs
  · subst hs
    cases m <;> cases a <;> simp
  · have hs0 : speed ≠ 0 := Nat.pos_iff_ne_zero.mp hs
    cases m <;> cases a <;> simp [hs, hs0]

/-- Claim C6 counterexample: with a 30 Hz monitor (30000 millihertz) the
controller is constructed with `speed = 60` above `max_speed = 30`, so the
bound does not hold at construction. -/
theorem controller_initial_speed_cex :
    (Controller.new (some 30000)).max_speed < (Controller.new (some 30000)).speed := by
  decide

/-- Claim C6 (amended): at construction the speed is 60, which is within
`[0, max_speed]` only when the monitor-derived `max_speed` is at least 60
(so in general only `speed ≤ max 60 max_speed` holds); after every update
through the speed control the bound `speed ≤ max_speed` holds, and the
control never changes `max_speed`. -/
theorem controller_speed_bound (r : Option ℕ) (c : Controller) (v : ℕ) :
    (Controller.new r).speed ≤ max 60 (Controller.new r).max_speed ∧
    (Controller.setSpeed c v).speed ≤ (Controller.setSpeed c v).max_speed ∧
    (Controller.setSpeed c v).max_speed = c.max_speed := by
  refine ⟨?_, ?_, rfl⟩
  · exact le_max_left 60 _
  · exact min_le_right v c.max_speed

/-- Claim C5 counterexample: with the default 4x4 camera over a 100x100
viewport, a click at the bottom-right pixel `(100, 100)` picks exactly the
cell coordinate `(width, height) = (4, 4)`, whose first component is not
below the grid width 4 — the camera makes no range check. -/
theorem cursor_position_out_of_range_cex :
    (Camera.update (Camera.new (4, 4) (100, 100))
        (.cursorMoved 100 100)).cursor_game_position =
      ((Camera.update (Camera.new (4, 4) (100, 100))
        (.cursorMoved 100 100)).game_size.1,
       (Camera.update (Camera.new (4, 4) (100, 100))
        (.cursorMoved 100 100)).game_size.2) ∧
    ¬ (Camera.update (Camera.new (4, 4) (100, 100))
        (.cursorMoved 100 100)).cursor_game_position.1 <
      (Camera.update (Camera.new (4, 4) (100, 100))
        (.cursorMoved 100 100)).game_size.1 := by
  have hpick : Camera.pickReal (Camera.update (Camera.new (4, 4) (100, 100))
      (.cursorMoved 100 100)) = (4, 4) := by
    norm_num [Camera.pickReal, Camera.update, Camera.new]
  have h4 : toU32 ((4 : ℕ) : ℚ) = 4 := toU32_natCast 4 (by norm_num)
  have hgs : (Camera.update (Camera.new (4, 4) (100, 100))
      (.cursorMoved 100 100)).game_size = (4, 4) := by
    norm_num [Camera.update, Camera.new]
  norm_num at h4
  constructor
  · simp only [Camera.cursor_game_position, hpick, hgs]
    norm_num [h4]
  · simp only [Camera.cursor_game_position, hpick, hgs]
    norm_num [h4]

/-- Claim C5 (amended): `Camera::cursor_game_position` does not enforce the
range contract for every cursor position; for a grid with positive
dimensions within the `u32` range, the returned coordinate is below the grid
dimensions precisely when the real-valued picked position lies below them
(the saturating casts keep negative positions at 0, never above the
bounds). -/
theorem cursor_game_position_in_range (c : Camera)
    (hw : 0 < c.game_size.1) (hh : 0 < c.game_size.2)
    (hw32 : c.game_size.1 ≤ 2 ^ 32 - 1) (hh32 : c.game_size.2 ≤ 2 ^ 32 - 1) :
    ((Camera.cursor_game_position c).1 < c.game_size.1 ↔
      (Camera.pickReal c).1 < (c.game_size.1 : ℚ)) ∧
    ((Camera.cursor_game_position c).2 < c.game_size.2 ↔
      (Camera.pickReal c).2 < (c.game_size.2 : ℚ)) :=
  ⟨toU32_lt_iff hw hw32, toU32_lt_iff hh hh32⟩

/-- Witness for `cursor_game_position_in_range`: the equivalence holds for
the default 4x4 camera with the cursor at pixel `(99, 99)` (which picks cell
`(3, 3)`, in range). -/
theorem cursor_game_position_in_range_witness :
    0 < (Camera.update (Camera.new (4, 4) (100, 100))
        (.cursorMoved 99 99)).game_size.1 ∧
    0 < (Camera.update (Camera.new (4, 4) (100, 100))
        (.cursorMoved 99 99)).game_size.2 ∧
    (Camera.update (Camera.new (4, 4) (100, 100))
        (.cursorMoved 99 99)).game_size.1 ≤ 2 ^ 32 - 1 ∧
    (Camera.update (Camera.new (4, 4) (100, 100))
        (.cursorMoved 99 99)).game_size.2 ≤ 2 ^ 32 - 1 ∧
    (((Camera.cursor_game_position (Camera.update (Camera.new (4, 4) (100, 100))
        (.cursorMoved 99 99))).1 <
        (Camera.update (Camera.new (4, 4) (100, 100))
          (.cursorMoved 99 99)).game_size.1 ↔
      (Camera.pickReal (Camera.update (Camera.new (4, 4) (100, 100))
        (.cursorMoved 99 99))).1 <
        ((Camera.update (Camera.new (4, 4) (100, 100))
          (.cursorMoved 99 99)).game_size.1 : ℚ)) ∧
     ((Camera.cursor_game_position (Camera.update (Camera.new (4, 4) (100, 100))
        (.cursorMoved 99 99))).2 <
        (Camera.update (Camera.new (4, 4) (100, 100))
          (.cursorMoved 99 99)).game_size.2 ↔
      (Camera.pickReal (Camera.update (Camera.new (4, 4) (100, 100))
        (.cursorMoved 99 99))).2 <
        ((Camera.update (Camera.new (4, 4) (100, 100))
          (.cursorMoved 99 99)).game_size.2 : ℚ))) := by
  have hgs : (Camera.update (Camera.new (4, 4) (100, 100))
      (.cursorMoved 99 99)).game_size = (4, 4) := by
    norm_num [Camera.update, Camera.new]
  have h1 : 0 < (Camera.update (Camera.new (4, 4) (100, 100))
      (.cursorMoved 99 99)).game_size.1 := by rw [hgs]; norm_num
  have h2 : 0 < (Camera.update (Camera.new (4, 4) (100, 100))
      (.cursorMoved 99 99)).game_size.2 := by rw [hgs]; norm_num
  have h3 : (Camera.update (Camera.new (4, 4) (100, 100))
      (.cursorMoved 99 99)).game_size.1 ≤ 2 ^ 32 - 1 := by rw [hgs]; norm_num
  have h4 : (Camera.update (Camera.new (4, 4) (100, 100))
      (.cursorMoved 99 99)).game_size.2 ≤ 2 ^ 32 - 1 := by rw [hgs]; norm_num
  exact ⟨h1, h2, h3, h4, cursor_game_position_in_range _ h1 h2 h3 h4⟩

/-- Claim C1: for every camera state within the clamped translation/scale
bounds (with positive screen dimensions, aspect factor and grid dimensions
of at most `2^32`), if the cursor sits at the pixel that the forward view
transform (`Camera.matrix` composed with the viewport transform) renders a
point of grid cell `(x, y)` to, then `Camera::cursor_game_position` recovers
exactly `(x, y)`. -/
theorem camera_pick_inverts_forward (c : Camera) (x y : ℕ) (tx ty : ℚ)
    (hb : c.inBounds)
    (hsw : 0 < c.screen_size.1) (hsh : 0 < c.screen_size.2)
    (hratio : 0 < c.ratio)
    (hgw : 0 < c.game_size.1) (hgh : 0 < c.game_size.2)
    (hgw32 : c.game_size.1 ≤ 2 ^ 32) (hgh32 : c.game_size.2 ≤ 2 ^ 32)
    (hx : x < c.game_size.1) (hy : y < c.game_size.2)
    (htx0 : 0 ≤ tx) (htx1 : tx < 1) (hty0 : 0 ≤ ty) (hty1 : ty < 1)
    (hcur : c.cursor_pos = c.forwardPixel x y tx ty) :
    c.cursor_game_position = (x, y) := by
  obtain ⟨-, -, -, -, hs1, -⟩ := hb
  have hscpos : 0 < c.scale := lt_of_lt_of_le (by norm_num) hs1
  have hsc : c.scale ≠ 0 := hscpos.ne'
  have hWne : c.screen_size.1 ≠ 0 := hsw.ne'
  have hHne : c.screen_size.2 ≠ 0 := hsh.ne'
  have hrne : c.ratio ≠ 0 := hratio.ne'
  have hwne : (c.game_size.1 : ℚ) ≠ 0 := Nat.cast_ne_zero.mpr hgw.ne'
  have hhne : (c.game_size.2 : ℚ) ≠ 0 := Nat.cast_ne_zero.mpr hgh.ne'
  have hpx : (Camera.pickReal c).1 = (x : ℚ) + tx := by
    simp only [Camera.pickReal, hcur, Camera.forwardPixel, Camera.matrix,
      Camera.cellNdc, Camera.ndcToPixel]
    field_simp
    ring
  have hpy : (Camera.pickReal c).2 = (y : ℚ) + ty := by
    simp only [Camera.pickReal, hcur, Camera.forwardPixel, Camera.matrix,
      Camera.cellNdc, Camera.ndcToPixel]
    field_simp
    ring
  simp only [Camera.cursor_game_position, hpx, hpy,
    toU32_add_fract x tx htx0 htx1 (lt_of_lt_of_le hx hgw32),
    toU32_add_fract y ty hty0 hty1 (lt_of_lt_of_le hy hgh32)]

/-- Witness for `camera_pick_inverts_forward`: on the default camera over a
4x4 grid and 100x100 viewport, the pixel rendered from point `(0, 1/2)` of
cell `(2, 1)` picks back cell `(2, 1)`. -/
theorem camera_pick_inverts_forward_witness :
    pickWitnessCamera.inBounds ∧
    0 < pickWitnessCamera.screen_size.1 ∧
    0 < pickWitnessCamera.screen_size.2 ∧
    0 < pickWitnessCamera.ratio ∧
    0 < pickWitnessCamera.game_size.1 ∧
    0 < pickWitnessCamera.game_size.2 ∧
    pickWitnessCamera.game_size.1 ≤ 2 ^ 32 ∧
    pickWitnessCamera.game_size.2 ≤ 2 ^ 32 ∧
    2 < pickWitnessCamera.game_size.1 ∧
    1 < pickWitnessCamera.game_size.2 ∧
    (0 : ℚ) ≤ 0 ∧ (0 : ℚ) < 1 ∧ (0 : ℚ) ≤ 1 / 2 ∧ (1 / 2 : ℚ) < 1 ∧
    pickWitnessCamera.cursor_pos = pickWitnessCamera.forwardPixel 2 1 0 (1 / 2) ∧
    pickWitnessCamera.cursor_game_position = (2, 1) := by
  have hb : pickWitnessCamera.inBounds := by
    norm_num [pickWitnessCamera, Camera.new, Camera.inBounds]
  have hsw : 0 < pickWitnessCamera.screen_size.1 := by
    norm_num [pickWitnessCamera, Camera.new]
  have hsh : 0 < pickWitnessCamera.screen_size.2 := by
    norm_num [pickWitnessCamera, Camera.new]
  have hratio : 0 < pickWitnessCamera.ratio := by
    norm_num [pickWitnessCamera, Camera.new]
  have hg1 : 0 < pickWitnessCamera.game_size.1 := by
    norm_num [pickWitnessCamera, Camera.new]
  have hg2 : 0 < pickWitnessCamera.game_size.2 := by
    norm_num [pickWitnessCamera, Camera.new]
  have h32a : pickWitnessCamera.game_size.1 ≤ 2 ^ 32 := by
    norm_num [pickWitnessCamera, Camera.new]
  have h32b : pickWitnessCamera.game_size.2 ≤ 2 ^ 32 := by
    norm_num [pickWitnessCamera, Camera.new]
  have hx : 2 < pickWitnessCamera.game_size.1 := by
    norm_num [pickWitnessCamera, Camera.new]
  have hy : 1 < pickWitnessCamera.game_size.2 := by
    norm_num [pickWitnessCamera, Camera.new]
  exact ⟨hb, hsw, hsh, hratio, hg1, hg2, h32a, h32b, hx, hy,
    le_rfl, by norm_num, by norm_num, by norm_num, rfl,
    camera_pick_inverts_forward pickWitnessCamera 2 1 0 (1 / 2) hb hsw hsh
      hratio hg1 hg2 h32a h32b hx hy le_rfl (by norm_num) (by norm_num)
      (by norm_num) rfl⟩

end GoL
